import Mathlib

/-!
Verification of the fleet monitoring / restart-orchestration core of the
Webproject repository, shallowly embedded in Lean 4.

The embedding follows the JavaScript sources:
  * `backend/services/monitoring.js` — health-monitor sweep
    (`monitorAllServers`, `pingServer`, `telnetServer`) and restart
    orchestrator (`executeRestart`, the restart-side `pingServer`,
    `executeSSHReboot`),
  * `src/pages/Scheduler.tsx` — scheduled-task creation form
    (`handleSubmit`, `getMinDateTime`).

External processes (the `ping` child process, the TCP connect, the `ssh`
session) are modelled by the event that settles each promise: which of the
`close` / `error` / watchdog-timeout callbacks fires first, plus the exit
code and captured stderr.  Wall-clock instants are modelled as naturals;
the concrete timeout durations (10s/5s/3s/15s) are folded into which
settling event occurs.
-/

namespace Webproject

/-! ### Probe and command primitives -/

/-- The event that settles the `ping` child process spawned by
`pingServer` (both the monitoring-side and the restart-side copy):
the process closes with an exit code (`none` models JS `null`, i.e. a
signal kill), the spawn itself errors, or the watchdog timeout fires
first and kills the process. -/
inductive PingEvent where
  | close (code : Option Int)
  | spawnError
  | timeout
deriving DecidableEq

/-- The event that settles the TCP probe in `telnetServer`: the connect
callback fires, the socket errors, or the watchdog timeout fires first. -/
inductive TelnetEvent where
  | connected
  | error
  | timeout
deriving DecidableEq

/-- `pingServer` (monitoring.js lines 81-118 and restart side lines
254-276): resolves `code === 0` on close, `false` on a spawn error, and
`false` when the watchdog kills the process. It never rejects. -/
def pingServer : PingEvent → Bool
  | PingEvent.close code => code == some 0
  | PingEvent.spawnError => false
  | PingEvent.timeout => false

/-- `telnetServer` (monitoring.js lines 120-143): resolves `true` on a
successful connect, `false` on a socket error or the 5s watchdog.  It
never rejects. -/
def telnetServer : TelnetEvent → Bool
  | TelnetEvent.connected => true
  | TelnetEvent.error => false
  | TelnetEvent.timeout => false

/-- The event that settles the `ssh` session in `executeSSHReboot`:
close with exit code (and the stderr captured so far), a spawn error, or
the 15-second watchdog firing first. -/
inductive SSHEvent where
  | close (code : Option Int) (stderr : String)
  | spawnError (msg : String)
  | timeout
deriving DecidableEq

/-- Result of one reboot invocation: the promise resolves (`success`) or
rejects with an error message (`failure`). -/
inductive RebootResult where
  | success
  | failure (msg : String)
deriving DecidableEq

/-- Rendering of a JS exit code inside the failure message
(`null` prints as "null"). -/
def codeStr : Option Int → String
  | some c => toString c
  | none => "null"

/-- `executeSSHReboot` (restart side, lines 278-330): on close, exit
codes `0`, `null` and `255` resolve as success (a rebooting host drops
the connection); any other code rejects with the captured stderr, or a
generic message when stderr is empty (JS `stderr || ...`). A spawn error
rejects with a connection-failure message, and the 15-second watchdog
rejects with "SSH command timeout". -/
def executeSSHReboot : SSHEvent → RebootResult
  | SSHEvent.close code stderr =>
      if code = some 0 ∨ code = none ∨ code = some 255 then
        RebootResult.success
      else
        RebootResult.failure
          (if stderr = "" then "SSH command failed with exit code " ++ codeStr code else stderr)
  | SSHEvent.spawnError msg => RebootResult.failure ("SSH connection failed: " ++ msg)
  | SSHEvent.timeout => RebootResult.failure "SSH command timeout"

/-! ### Theorems for claim C6 -/

/-- C6: for every reboot invocation, a session completion with exit code
`null` or `255` (connection dropped / process terminated abnormally) is
treated as success; exceeding the 15-second ceiling is a failure with
the distinct message "SSH command timeout"; and any other non-zero
completion is a failure carrying the captured stderr stream when one was
captured. -/
theorem executeSSHReboot_completion_policy (c : Int) (stderr : String)
    (h0 : c ≠ 0) (h255 : c ≠ 255) (hs : stderr ≠ "") :
    executeSSHReboot (SSHEvent.close none stderr) = RebootResult.success ∧
    executeSSHReboot (SSHEvent.close (some 255) stderr) = RebootResult.success ∧
    executeSSHReboot SSHEvent.timeout = RebootResult.failure "SSH command timeout" ∧
    RebootResult.failure "SSH command timeout" ≠ RebootResult.success ∧
    executeSSHReboot (SSHEvent.close (some c) stderr) = RebootResult.failure stderr := by
  refine ⟨rfl, by simp [executeSSHReboot], rfl, by simp, ?_⟩
  simp [executeSSHReboot, h0, h255, hs]

/-- Witness for C6 at exit code 127 with stderr "command not found". -/
theorem executeSSHReboot_completion_policy_witness :
    executeSSHReboot (SSHEvent.close (some 127) "command not found")
      = RebootResult.failure "command not found" :=
  (executeSSHReboot_completion_policy 127 "command not found"
    (by decide) (by decide) (by decide)).2.2.2.2

/-! ### Restart orchestrator (`executeRestart`, restart side of monitoring.js) -/

/-- A host as the restart orchestrator reads it.  Only the fields the
orchestrator touches are modelled: identity and addressing, the restart
priority (`restartOrder`, lower first) and the post-restart pacing
duration in seconds (`restartDelay`).  The SSH credentials
(`sshUser`/`sshPort`) only feed the spawned command line, which is
abstracted by `SSHEvent`. -/
structure Server where
  id : Nat
  name : String
  hostname : String
  ipAddress : String
  restartOrder : Int
  restartDelay : Int
deriving DecidableEq

/-- One entry of `details.servers` (a successful per-host outcome; the
code also stores a timestamp, abstracted away). -/
structure HostOutcome where
  id : Nat
  name : String
  hostname : String
  status : String
deriving DecidableEq

/-- One entry of `details.errors` (a failed per-host outcome). -/
structure HostError where
  serverId : Nat
  serverName : String
  error : String
deriving DecidableEq

/-- The restart log row as `restartLog.update` leaves it.  `endTimeSet`
records whether an `endTime: new Date()` patch was applied (the concrete
instant is abstracted); `detailError` is the `details.error` field
written by the outer catch. -/
structure BatchLog where
  status : String
  endTimeSet : Bool
  detailServers : List HostOutcome
  detailErrors : List HostError
  detailError : Option String
deriving DecidableEq

/-- Observable steps of `executeRestart`, in order of occurrence:
the "started" emit, the per-host log line (`attempt`), the pre-flight
ping (`pingCheck`), the `executeSSHReboot` invocation (`rebootCall`),
the per-host "restarted"/"error" emits, the pacing wait (`sleep`, with
the host's `restartDelay` in seconds), and the final summary emit. -/
inductive REvent where
  | started
  | attempt (serverId : Nat)
  | pingCheck (serverId : Nat)
  | rebootCall (serverId : Nat)
  | restarted (serverId : Nat)
  | errorEvent (serverId : Nat) (msg : String)
  | sleep (serverId : Nat) (seconds : Int)
  | finalStatus (status : String)
deriving DecidableEq

/-- Environment of one orchestration run: which event settles the
pre-flight ping process and the ssh session of each host. -/
structure RestartEnv where
  pingEvent : Server → PingEvent
  sshEvent : Server → SSHEvent

/-- The message of the error thrown when the pre-flight ping fails
(`throw new Error(...)`, line 171). -/
def unreachableMsg (ip : String) : String :=
  "Server " ++ ip ++ " is not reachable via ping"

/-- The body of one iteration of the `for` loop of `executeRestart`
(lines 164-217), including its per-host `try`/`catch`: pre-flight ping,
then the reboot, recording either a success entry or an error entry, and
pacing only on the success path (lines 194-198 sit inside the `try`
after the success push). -/
def hostStep (env : RestartEnv) (s : Server) :
    Option HostOutcome × Option HostError × List REvent :=
  if pingServer (env.pingEvent s) then
    match executeSSHReboot (env.sshEvent s) with
    | RebootResult.success =>
        (some { id := s.id, name := s.name, hostname := s.hostname, status := "success" },
         none,
         [REvent.attempt s.id, REvent.pingCheck s.id, REvent.rebootCall s.id,
          REvent.restarted s.id]
           ++ (if 0 < s.restartDelay then [REvent.sleep s.id s.restartDelay] else []))
    | RebootResult.failure msg =>
        (none,
         some { serverId := s.id, serverName := s.name, error := msg },
         [REvent.attempt s.id, REvent.pingCheck s.id, REvent.rebootCall s.id,
          REvent.errorEvent s.id msg])
  else
    (none,
     some { serverId := s.id, serverName := s.name, error := unreachableMsg s.ipAddress },
     [REvent.attempt s.id, REvent.pingCheck s.id,
      REvent.errorEvent s.id (unreachableMsg s.ipAddress)])

/-- Event trace of one host iteration. -/
def hostEvents (env : RestartEnv) (s : Server) : List REvent :=
  (hostStep env s).2.2

/-- The whole `for` loop: per-host outcomes are pushed onto
`details.servers` / `details.errors` in processing order and events are
emitted in order.  A host's failure only adds an error entry; the fold
always continues with the rest of the list (the per-host `catch`). -/
def processServers (env : RestartEnv) :
    List Server → List HostOutcome × List HostError × List REvent
  | [] => ([], [], [])
  | s :: rest =>
      let step := hostStep env s
      let r := processServers env rest
      (step.1.toList ++ r.1, step.2.1.toList ++ r.2.1, step.2.2 ++ r.2.2)

/-- Stable insertion into a list that is being sorted by `restartOrder`:
the new element goes in front of the first element whose priority is not
strictly smaller. -/
def insertByOrder (x : Server) : List Server → List Server
  | [] => [x]
  | y :: ys =>
      if y.restartOrder < x.restartOrder then y :: insertByOrder x ys
      else x :: y :: ys

/-- `servers.sort((a, b) => a.restartOrder - b.restartOrder)` (line 154).
JS `Array.prototype.sort` is stable (ES2019), and a stable sort's output
is the unique sorted permutation preserving the relative order of
equal-priority hosts, so stable insertion sort computes the same list. -/
def sortByRestartOrder : List Server → List Server
  | [] => []
  | x :: xs => insertByOrder x (sortByRestartOrder xs)

/-- An exception escaping the per-host `try`/`catch` and reaching the
outer `catch` of `executeRestart` (lines 236-251): none, one thrown
before the loop (by `servers.sort` or the "started" emit), or one thrown
after the loop (by the final `restartLog.update` or the final emit). -/
inductive OrchThrow where
  | none
  | atStart (msg : String)
  | atFinish (msg : String)
deriving DecidableEq

/-- `details.errors.length === 0 ? 'completed' : 'failed'` (line 220). -/
def batchStatus (errCount : Nat) : String :=
  if errCount = 0 then "completed" else "failed"

/-- `executeRestart` (lines 149-252): sort by restart priority, emit
"started", run the per-host loop, then update the restart log with the
outcome and an end time.  Any exception reaching the outer `catch`
updates the log to `failed` with `details = \x7b error \x7d` and still
stamps an end time. -/
def executeRestart (env : RestartEnv) (oe : OrchThrow) (servers : List Server) :
    BatchLog × List REvent :=
  match oe with
  | OrchThrow.atStart msg =>
      ({ status := "failed", endTimeSet := true,
         detailServers := [], detailErrors := [], detailError := some msg }, [])
  | OrchThrow.atFinish msg =>
      let r := processServers env (sortByRestartOrder servers)
      ({ status := "failed", endTimeSet := true,
         detailServers := [], detailErrors := [], detailError := some msg },
       REvent.started :: r.2.2)
  | OrchThrow.none =>
      let r := processServers env (sortByRestartOrder servers)
      let st := batchStatus r.2.1.length
      ({ status := st, endTimeSet := true,
         detailServers := r.1, detailErrors := r.2.1, detailError := none },
       REvent.started :: r.2.2 ++ [REvent.finalStatus st])

/-! ### Sorting lemmas -/

theorem insertByOrder_perm (x : Server) (l : List Server) :
    (insertByOrder x l).Perm (x :: l) := by
  induction l with
  | nil => simp [insertByOrder]
  | cons y ys ih =>
      unfold insertByOrder
      split
      · exact (ih.cons y).trans (List.Perm.swap x y ys)
      · exact List.Perm.refl _

theorem sortByRestartOrder_perm (l : List Server) :
    (sortByRestartOrder l).Perm l := by
  induction l with
  | nil => exact List.Perm.refl _
  | cons x xs ih => exact (insertByOrder_perm x _).trans (ih.cons x)

theorem pairwise_insertByOrder {x : Server} {l : List Server}
    (h : l.Pairwise (fun a b => a.restartOrder ≤ b.restartOrder)) :
    (insertByOrder x l).Pairwise (fun a b => a.restartOrder ≤ b.restartOrder) := by
  induction l with
  | nil => simp [insertByOrder]
  | cons y ys ih =>
      rw [List.pairwise_cons] at h
      obtain ⟨hy, hys⟩ := h
      unfold insertByOrder
      split
      case isTrue hlt =>
        rw [List.pairwise_cons]
        refine ⟨?_, ih hys⟩
        intro z hz
        rw [(insertByOrder_perm x ys).mem_iff, List.mem_cons] at hz
        rcases hz with rfl | hz
        · exact le_of_lt hlt
        · exact hy z hz
      case isFalse hge =>
        rw [List.pairwise_cons]
        refine ⟨?_, List.pairwise_cons.mpr ⟨hy, hys⟩⟩
        intro z hz
        rcases List.mem_cons.mp hz with rfl | hz
        · exact le_of_not_lt hge
        · exact le_trans (le_of_not_lt hge) (hy z hz)

theorem sortByRestartOrder_sorted (l : List Server) :
    (sortByRestartOrder l).Pairwise (fun a b => a.restartOrder ≤ b.restartOrder) := by
  induction l with
  | nil => simp [sortByRestartOrder]
  | cons x xs ih => exact pairwise_insertByOrder ih

theorem filter_insertByOrder (x : Server) (l : List Server) (k : Int) :
    (insertByOrder x l).filter (fun s => s.restartOrder == k)
      = if x.restartOrder = k
        then x :: l.filter (fun s => s.restartOrder == k)
        else l.filter (fun s => s.restartOrder == k) := by
  induction l with
  | nil => by_cases hx : x.restartOrder = k <;> simp [insertByOrder, hx]
  | cons y ys ih =>
      unfold insertByOrder
      split
      case isTrue hlt =>
        by_cases hx : x.restartOrder = k
        · have hy : ¬ y.restartOrder = k := by
            intro hyk
            rw [hx] at hlt
            exact absurd hyk (ne_of_lt hlt)
          simp [List.filter_cons, hx, hy, ih]
        · simp [List.filter_cons, hx, ih]
      case isFalse hge =>
        by_cases hx : x.restartOrder = k <;> simp [List.filter_cons, hx]

theorem filter_sortByRestartOrder (l : List Server) (k : Int) :
    (sortByRestartOrder l).filter (fun s => s.restartOrder == k)
      = l.filter (fun s => s.restartOrder == k) := by
  induction l with
  | nil => rfl
  | cons x xs ih =>
      by_cases hx : x.restartOrder = k <;>
        simp [sortByRestartOrder, filter_insertByOrder, List.filter_cons, hx, ih]

/-! ### Event-trace lemmas -/

/-- Projection selecting the per-host `attempt` marker. -/
def attemptId : REvent → Option Nat
  | REvent.attempt i => some i
  | _ => none

/-- Host ids in the order the orchestrator attempted them. -/
def attemptedIds (evs : List REvent) : List Nat :=
  evs.filterMap attemptId

theorem attemptedIds_hostEvents (env : RestartEnv) (s : Server) :
    attemptedIds (hostEvents env s) = [s.id] := by
  unfold hostEvents hostStep
  split
  · split
    · split <;> simp [attemptedIds, attemptId]
    · simp [attemptedIds, attemptId]
  · simp [attemptedIds, attemptId]

theorem attemptedIds_processServers (env : RestartEnv) (l : List Server) :
    attemptedIds (processServers env l).2.2 = l.map Server.id := by
  induction l with
  | nil => rfl
  | cons s rest ih =>
      have h : (processServers env (s :: rest)).2.2
          = hostEvents env s ++ (processServers env rest).2.2 := rfl
      rw [h, attemptedIds, List.filterMap_append]
      rw [← attemptedIds, ← attemptedIds, attemptedIds_hostEvents, ih]
      rfl

/-- The attempted order of a run is exactly the priority-sorted list. -/
theorem attemptedIds_executeRestart (env : RestartEnv) (servers : List Server) :
    attemptedIds (executeRestart env OrchThrow.none servers).2
      = (sortByRestartOrder servers).map Server.id := by
  have h : (executeRestart env OrchThrow.none servers).2
      = REvent.started :: (processServers env (sortByRestartOrder servers)).2.2
          ++ [REvent.finalStatus (batchStatus
              (processServers env (sortByRestartOrder servers)).2.1.length)] := rfl
  rw [h, attemptedIds]
  rw [show (REvent.started :: (processServers env (sortByRestartOrder servers)).2.2
      ++ [REvent.finalStatus (batchStatus
          (processServers env (sortByRestartOrder servers)).2.1.length)])
    = [REvent.started] ++ (processServers env (sortByRestartOrder servers)).2.2
        ++ [REvent.finalStatus (batchStatus
            (processServers env (sortByRestartOrder servers)).2.1.length)] from rfl]
  rw [List.filterMap_append, List.filterMap_append]
  have hmid := attemptedIds_processServers env (sortByRestartOrder servers)
  rw [attemptedIds] at hmid
  rw [hmid]
  simp [attemptId]

/-- C8: in every batch the hosts are processed in non-decreasing
`restartOrder`, the processed list is a permutation of the input, and
equal-priority hosts keep their input order (the list filtered to any
one priority value is unchanged by the sort). -/
theorem executeRestart_order_stable (env : RestartEnv) (servers : List Server) :
    attemptedIds (executeRestart env OrchThrow.none servers).2
      = (sortByRestartOrder servers).map Server.id ∧
    (sortByRestartOrder servers).Pairwise
      (fun a b => a.restartOrder ≤ b.restartOrder) ∧
    (sortByRestartOrder servers).Perm servers ∧
    ∀ k : Int,
      (sortByRestartOrder servers).filter (fun s => s.restartOrder == k)
        = servers.filter (fun s => s.restartOrder == k) :=
  ⟨attemptedIds_executeRestart env servers, sortByRestartOrder_sorted servers,
    sortByRestartOrder_perm servers, fun k => filter_sortByRestartOrder servers k⟩

/-- A fixed environment used by concrete instantiations: every ping
times out and every ssh session times out. -/
def envW : RestartEnv :=
  { pingEvent := fun _ => PingEvent.timeout, sshEvent := fun _ => SSHEvent.timeout }

/-- A concrete host with priority 2. -/
def srvLate : Server :=
  { id := 2, name := "db", hostname := "db.local", ipAddress := "10.0.0.2",
    restartOrder := 2, restartDelay := 0 }

/-- A concrete host with priority 1. -/
def srvEarly : Server :=
  { id := 1, name := "app", hostname := "app.local", ipAddress := "10.0.0.1",
    restartOrder := 1, restartDelay := 0 }

/-- Witness for C8: the batch [priority 2, priority 1] is attempted in
the order [1, 2]. -/
theorem executeRestart_order_stable_witness :
    attemptedIds (executeRestart envW OrchThrow.none [srvLate, srvEarly]).2 = [1, 2] := by
  rw [(executeRestart_order_stable envW [srvLate, srvEarly]).1]
  decide

/-! ### Counting events per host -/

/-- Does this event record a reboot invocation for host `i`? -/
def isRebootCallOf (i : Nat) : REvent → Bool
  | REvent.rebootCall j => j == i
  | _ => false

/-- Does this event record a pacing wait for host `i`? -/
def isSleepOf (i : Nat) : REvent → Bool
  | REvent.sleep j _ => j == i
  | _ => false

/-- Number of reboot invocations recorded for host `i`. -/
def rebootCallCount (evs : List REvent) (i : Nat) : Nat :=
  evs.countP (isRebootCallOf i)

/-- Number of pacing waits recorded for host `i`. -/
def sleepCount (evs : List REvent) (i : Nat) : Nat :=
  evs.countP (isSleepOf i)

theorem hostEvents_reboot_count (env : RestartEnv) (t : Server) (i : Nat) :
    (hostEvents env t).countP (isRebootCallOf i)
      = if t.id = i ∧ pingServer (env.pingEvent t) = true then 1 else 0 := by
  by_cases hid : t.id = i <;>
    · unfold hostEvents hostStep
      split
      · split
        · split <;> simp_all [isRebootCallOf]
        · simp_all [isRebootCallOf]
      · simp_all [isRebootCallOf]

theorem hostEvents_sleep_count (env : RestartEnv) (t : Server) (i : Nat) :
    (hostEvents env t).countP (isSleepOf i)
      = if t.id = i ∧ pingServer (env.pingEvent t) = true
           ∧ executeSSHReboot (env.sshEvent t) = RebootResult.success
           ∧ 0 < t.restartDelay then 1 else 0 := by
  unfold hostEvents hostStep
  split
  · rename_i hping
    split
    · rename_i hsucc
      split
      · rename_i hdel
        by_cases hid : t.id = i <;> simp_all [isSleepOf]
      · rename_i hdel
        rw [if_neg (fun hcon => hdel hcon.2.2.2)]
        simp [isSleepOf]
    · rename_i msg hfail
      have hne : ¬ (t.id = i ∧ pingServer (env.pingEvent t) = true
           ∧ executeSSHReboot (env.sshEvent t) = RebootResult.success
           ∧ 0 < t.restartDelay) := by
        intro hcon
        rw [hfail] at hcon
        exact absurd hcon.2.2.1 (by simp)
      rw [if_neg hne]
      simp [isSleepOf]
  · rename_i hping
    rw [if_neg (fun hcon => hping hcon.2.1)]
    simp [isSleepOf]

theorem countP_processServers (env : RestartEnv) (p : REvent → Bool) (l : List Server) :
    (processServers env l).2.2.countP p
      = ((l.map fun t => (hostEvents env t).countP p).sum) := by
  induction l with
  | nil => rfl
  | cons s rest ih =>
      have h : (processServers env (s :: rest)).2.2
          = hostEvents env s ++ (processServers env rest).2.2 := rfl
      rw [h, List.countP_append, ih, List.map_cons, List.sum_cons]

theorem countP_processServers_single (env : RestartEnv) (p : REvent → Bool)
    {l : List Server} {s : Server}
    (hnd : (l.map Server.id).Nodup) (hmem : s ∈ l)
    (hz : ∀ t : Server, t.id ≠ s.id → (hostEvents env t).countP p = 0) :
    (processServers env l).2.2.countP p = (hostEvents env s).countP p := by
  induction l with
  | nil => cases hmem
  | cons t rest ih =>
      have h : (processServers env (t :: rest)).2.2
          = hostEvents env t ++ (processServers env rest).2.2 := rfl
      rw [h, List.countP_append]
      rw [List.map_cons, List.nodup_cons] at hnd
      obtain ⟨hnotin, hndrest⟩ := hnd
      rcases List.mem_cons.mp hmem with rfl | hmem'
      · have hrest : (processServers env rest).2.2.countP p = 0 := by
          rw [countP_processServers]
          apply List.sum_eq_zero
          intro n hn
          rw [List.mem_map] at hn
          obtain ⟨u, hu, rfl⟩ := hn
          apply hz
          intro he
          exact hnotin (by rw [← he]; exact List.mem_map_of_mem Server.id hu)
        rw [hrest]
        simp
      · have ht0 : (hostEvents env t).countP p = 0 := by
          apply hz
          intro he
          exact hnotin (by rw [he]; exact List.mem_map_of_mem Server.id hmem')
        rw [ht0, ih hndrest hmem']
        simp

/-- The event list of a full run decomposes around any processed host. -/
theorem processServers_decomp (env : RestartEnv) {l : List Server} {s : Server}
    (h : s ∈ l) :
    ∃ pre post, (processServers env l).2.2 = pre ++ hostEvents env s ++ post := by
  induction l with
  | nil => cases h
  | cons t rest ih =>
      rcases List.mem_cons.mp h with rfl | h'
      · exact ⟨[], (processServers env rest).2.2, rfl⟩
      · obtain ⟨pre, post, hp⟩ := ih h'
        refine ⟨hostEvents env t ++ pre, post, ?_⟩
        have hd : (processServers env (t :: rest)).2.2
            = hostEvents env t ++ (processServers env rest).2.2 := rfl
        rw [hd, hp]
        simp

/-- An error entry produced by a host's iteration ends up in
`details.errors`. -/
theorem hostError_mem (env : RestartEnv) {l : List Server} {s : Server}
    (h : s ∈ l) {e : HostError} (he : (hostStep env s).2.1 = some e) :
    e ∈ (processServers env l).2.1 := by
  induction l with
  | nil => cases h
  | cons t rest ih =>
      have hd : (processServers env (t :: rest)).2.1
          = (hostStep env t).2.1.toList ++ (processServers env rest).2.1 := rfl
      rw [hd]
      rcases List.mem_cons.mp h with rfl | h'
      · rw [he]; simp
      · exact List.mem_append_right _ (ih h')

theorem hostStep_error_unreachable (env : RestartEnv) (s : Server)
    (hp : pingServer (env.pingEvent s) = false) :
    (hostStep env s).2.1
      = some { serverId := s.id, serverName := s.name,
               error := unreachableMsg s.ipAddress } := by
  unfold hostStep
  simp [hp]

theorem hostStep_error_reboot (env : RestartEnv) (s : Server) (msg : String)
    (hp : pingServer (env.pingEvent s) = true)
    (hr : executeSSHReboot (env.sshEvent s) = RebootResult.failure msg) :
    (hostStep env s).2.1
      = some { serverId := s.id, serverName := s.name, error := msg } := by
  unfold hostStep
  simp [hp, hr]

theorem attempt_mem_of_mem_attemptedIds {evs : List REvent} {i : Nat}
    (h : i ∈ attemptedIds evs) : REvent.attempt i ∈ evs := by
  rw [attemptedIds, List.mem_filterMap] at h
  obtain ⟨e, he, hf⟩ := h
  cases e <;> simp [attemptId] at hf
  exact hf ▸ he

/-! ### Theorems for claims C1, C9, C5, C3 -/

/-- C1: for every batch the restart log always receives an end time and
never stays `running`; in a normal run the outcome is `completed` iff
there are zero failed per-host outcomes; and when an uncaught error
escapes to the outer catch the batch is marked `failed` with the error
detail (and still has its end time stamped). -/
theorem executeRestart_terminal (env : RestartEnv) (oe : OrchThrow)
    (servers : List Server) :
    (executeRestart env oe servers).1.endTimeSet = true ∧
    (executeRestart env oe servers).1.status ≠ "running" ∧
    (oe = OrchThrow.none →
      ((executeRestart env oe servers).1.status = "completed" ↔
        (executeRestart env oe servers).1.detailErrors = [])) ∧
    (∀ msg, (oe = OrchThrow.atStart msg ∨ oe = OrchThrow.atFinish msg) →
      (executeRestart env oe servers).1.status = "failed" ∧
      (executeRestart env oe servers).1.detailError = some msg) := by
  cases oe with
  | none =>
      refine ⟨rfl, ?_, ?_, ?_⟩
      · show batchStatus (processServers env (sortByRestartOrder servers)).2.1.length
          ≠ "running"
        unfold batchStatus
        split <;> decide
      · intro _
        show batchStatus (processServers env (sortByRestartOrder servers)).2.1.length
            = "completed"
          ↔ (processServers env (sortByRestartOrder servers)).2.1 = []
        unfold batchStatus
        split
        case isTrue hlen =>
          simp [List.length_eq_zero.mp hlen]
        case isFalse hlen =>
          constructor
          · intro hco
            exact absurd hco (by decide)
          · intro hnil
            exact absurd (by rw [hnil]; rfl) hlen
      · intro msg hmsg
        rcases hmsg with hmsg | hmsg <;> cases hmsg
  | atStart m =>
      refine ⟨rfl, (by decide : ("failed" : String) ≠ "running"), ?_, ?_⟩
      · intro hco
        cases hco
      · intro msg hmsg
        rcases hmsg with hmsg | hmsg <;> cases hmsg
        exact ⟨rfl, rfl⟩
  | atFinish m =>
      refine ⟨rfl, (by decide : ("failed" : String) ≠ "running"), ?_, ?_⟩
      · intro hco
        cases hco
      · intro msg hmsg
        rcases hmsg with hmsg | hmsg <;> cases hmsg
        exact ⟨rfl, rfl⟩

/-- Witness for C1 on the empty batch: zero failures gives status
`completed`, and an orchestration error gives `failed` with detail. -/
theorem executeRestart_terminal_witness :
    (executeRestart envW OrchThrow.none []).1.status = "completed" ∧
    (executeRestart envW (OrchThrow.atStart "inventory unavailable") []).1.status = "failed" :=
  ⟨((executeRestart_terminal envW OrchThrow.none []).2.2.1 rfl).mpr (by decide),
   ((executeRestart_terminal envW (OrchThrow.atStart "inventory unavailable") []).2.2.2
      "inventory unavailable" (Or.inl rfl)).1⟩

/-- C9: every host of the batch is attempted — a failed pre-flight or a
failed reboot only records an error entry for that host; it never stops
the remaining hosts from being attempted. -/
theorem executeRestart_failure_isolation (env : RestartEnv)
    (servers : List Server) (s : Server) (h : s ∈ servers) :
    REvent.attempt s.id ∈ (executeRestart env OrchThrow.none servers).2 ∧
    (pingServer (env.pingEvent s) = false →
      { serverId := s.id, serverName := s.name, error := unreachableMsg s.ipAddress }
        ∈ (executeRestart env OrchThrow.none servers).1.detailErrors) ∧
    (∀ msg, pingServer (env.pingEvent s) = true →
      executeSSHReboot (env.sshEvent s) = RebootResult.failure msg →
      { serverId := s.id, serverName := s.name, error := msg }
        ∈ (executeRestart env OrchThrow.none servers).1.detailErrors) := by
  have hsorted : s ∈ sortByRestartOrder servers :=
    ((sortByRestartOrder_perm servers).mem_iff).mpr h
  have herr : (executeRestart env OrchThrow.none servers).1.detailErrors
      = (processServers env (sortByRestartOrder servers)).2.1 := rfl
  refine ⟨?_, ?_, ?_⟩
  · apply attempt_mem_of_mem_attemptedIds
    rw [attemptedIds_executeRestart env servers]
    exact List.mem_map_of_mem Server.id hsorted
  · intro hp
    rw [herr]
    exact hostError_mem env hsorted (hostStep_error_unreachable env s hp)
  · intro msg hp hr
    rw [herr]
    exact hostError_mem env hsorted (hostStep_error_reboot env s msg hp hr)

/-- A concrete batch of two hosts where the first host's reboot times
out and the second host's session succeeds via a dropped connection. -/
def envMixed : RestartEnv :=
  { pingEvent := fun _ => PingEvent.close (some 0),
    sshEvent := fun s => if s.id = 1 then SSHEvent.timeout else SSHEvent.close none "" }

/-- Witness for C9: with host 1 timing out, host 2 is still attempted
and host 1's timeout is recorded. -/
theorem executeRestart_failure_isolation_witness :
    REvent.attempt srvLate.id
      ∈ (executeRestart envMixed OrchThrow.none [srvEarly, srvLate]).2 ∧
    { serverId := srvEarly.id, serverName := srvEarly.name, error := "SSH command timeout" }
      ∈ (executeRestart envMixed OrchThrow.none [srvEarly, srvLate]).1.detailErrors :=
  ⟨(executeRestart_failure_isolation envMixed [srvEarly, srvLate] srvLate
      (by decide)).1,
   (executeRestart_failure_isolation envMixed [srvEarly, srvLate] srvEarly
      (by decide)).2.2 "SSH command timeout" (by decide) (by decide)⟩

theorem rebootCallCount_executeRestart (env : RestartEnv) {servers : List Server}
    {s : Server} (hnd : (servers.map Server.id).Nodup) (h : s ∈ servers) :
    rebootCallCount (executeRestart env OrchThrow.none servers).2 s.id
      = if pingServer (env.pingEvent s) = true then 1 else 0 := by
  have hsorted : s ∈ sortByRestartOrder servers :=
    (sortByRestartOrder_perm servers).mem_iff.mpr h
  have hndsorted : ((sortByRestartOrder servers).map Server.id).Nodup :=
    (List.Perm.nodup_iff ((sortByRestartOrder_perm servers).map Server.id)).mpr hnd
  have hz : ∀ t : Server, t.id ≠ s.id →
      (hostEvents env t).countP (isRebootCallOf s.id) = 0 := by
    intro t hne
    rw [hostEvents_reboot_count]
    exact if_neg (fun hcon => hne hcon.1)
  have hmain := countP_processServers_single env (isRebootCallOf s.id) hndsorted hsorted hz
  have hev : (executeRestart env OrchThrow.none servers).2
      = REvent.started :: (processServers env (sortByRestartOrder servers)).2.2
        ++ [REvent.finalStatus (batchStatus
            (processServers env (sortByRestartOrder servers)).2.1.length)] := rfl
  rw [rebootCallCount, hev]
  simp only [List.countP_cons, List.countP_append]
  rw [hmain, hostEvents_reboot_count]
  simp [isRebootCallOf]

theorem sleepCount_executeRestart (env : RestartEnv) {servers : List Server}
    {s : Server} (hnd : (servers.map Server.id).Nodup) (h : s ∈ servers) :
    sleepCount (executeRestart env OrchThrow.none servers).2 s.id
      = if pingServer (env.pingEvent s) = true
           ∧ executeSSHReboot (env.sshEvent s) = RebootResult.success
           ∧ 0 < s.restartDelay then 1 else 0 := by
  have hsorted : s ∈ sortByRestartOrder servers :=
    (sortByRestartOrder_perm servers).mem_iff.mpr h
  have hndsorted : ((sortByRestartOrder servers).map Server.id).Nodup :=
    (List.Perm.nodup_iff ((sortByRestartOrder_perm servers).map Server.id)).mpr hnd
  have hz : ∀ t : Server, t.id ≠ s.id →
      (hostEvents env t).countP (isSleepOf s.id) = 0 := by
    intro t hne
    rw [hostEvents_sleep_count]
    exact if_neg (fun hcon => hne hcon.1)
  have hmain := countP_processServers_single env (isSleepOf s.id) hndsorted hsorted hz
  have hev : (executeRestart env OrchThrow.none servers).2
      = REvent.started :: (processServers env (sortByRestartOrder servers)).2.2
        ++ [REvent.finalStatus (batchStatus
            (processServers env (sortByRestartOrder servers)).2.1.length)] := rfl
  rw [sleepCount, hev]
  simp only [List.countP_cons, List.countP_append]
  rw [hmain, hostEvents_sleep_count]
  simp [isSleepOf]

/-- The pacing wait of a successful host appears in the trace. -/
theorem sleep_mem_executeRestart (env : RestartEnv) {servers : List Server}
    {s : Server} (h : s ∈ servers)
    (hp : pingServer (env.pingEvent s) = true)
    (hr : executeSSHReboot (env.sshEvent s) = RebootResult.success)
    (hdel : 0 < s.restartDelay) :
    REvent.sleep s.id s.restartDelay ∈ (executeRestart env OrchThrow.none servers).2 := by
  have hsorted : s ∈ sortByRestartOrder servers :=
    (sortByRestartOrder_perm servers).mem_iff.mpr h
  obtain ⟨pre, post, hdecomp⟩ := processServers_decomp env hsorted
  have hmemhost : REvent.sleep s.id s.restartDelay ∈ hostEvents env s := by
    unfold hostEvents hostStep
    simp [hp, hr, hdel]
  have hev : (executeRestart env OrchThrow.none servers).2
      = REvent.started :: (processServers env (sortByRestartOrder servers)).2.2
        ++ [REvent.finalStatus (batchStatus
            (processServers env (sortByRestartOrder servers)).2.1.length)] := rfl
  rw [hev, hdecomp]
  simp [hmemhost]

/-- The pre-flight check precedes the reboot invocation in the trace of
every host that passed it. -/
theorem preflight_before_reboot (env : RestartEnv) {servers : List Server}
    {s : Server} (h : s ∈ servers)
    (hp : pingServer (env.pingEvent s) = true) :
    [REvent.pingCheck s.id, REvent.rebootCall s.id].Sublist
      (executeRestart env OrchThrow.none servers).2 := by
  have hsorted : s ∈ sortByRestartOrder servers :=
    (sortByRestartOrder_perm servers).mem_iff.mpr h
  obtain ⟨pre, post, hdecomp⟩ := processServers_decomp env hsorted
  have hseg : [REvent.pingCheck s.id, REvent.rebootCall s.id].Sublist
      (hostEvents env s) := by
    unfold hostEvents hostStep
    rw [if_pos hp]
    split
    · have h1 : [REvent.pingCheck s.id, REvent.rebootCall s.id].Sublist
          ([REvent.pingCheck s.id, REvent.rebootCall s.id]
            ++ [REvent.restarted s.id]) := List.sublist_append_left _ _
      have h2 := h1.trans (List.sublist_append_right [REvent.attempt s.id]
        ([REvent.pingCheck s.id, REvent.rebootCall s.id] ++ [REvent.restarted s.id]))
      exact h2.trans (List.sublist_append_left _ _)
    · rename_i msg hfail
      have h1 : [REvent.pingCheck s.id, REvent.rebootCall s.id].Sublist
          ([REvent.pingCheck s.id, REvent.rebootCall s.id]
            ++ [REvent.errorEvent s.id msg]) := List.sublist_append_left _ _
      exact h1.trans (List.sublist_append_right [REvent.attempt s.id] _)
  have hinproc : [REvent.pingCheck s.id, REvent.rebootCall s.id].Sublist
      (processServers env (sortByRestartOrder servers)).2.2 := by
    rw [hdecomp, List.append_assoc]
    exact (hseg.trans (List.sublist_append_left _ _)).trans
      (List.sublist_append_right pre _)
  have hev : (executeRestart env OrchThrow.none servers).2
      = REvent.started :: (processServers env (sortByRestartOrder servers)).2.2
        ++ [REvent.finalStatus (batchStatus
            (processServers env (sortByRestartOrder servers)).2.1.length)] := rfl
  rw [hev]
  exact ((hinproc.trans (List.sublist_append_left _ _)).trans
    (List.sublist_cons_self _ _))

/-- C5: for every host of a batch (with distinct host ids), the
pre-flight ping check appears in the trace before the reboot invocation;
a host that passes pre-flight gets exactly one reboot invocation; a host
that fails pre-flight gets zero reboot invocations and is recorded as
failed with the unreachable message. -/
theorem executeRestart_preflight_gates_reboot (env : RestartEnv)
    (servers : List Server) (s : Server)
    (hnd : (servers.map Server.id).Nodup) (h : s ∈ servers) :
    rebootCallCount (executeRestart env OrchThrow.none servers).2 s.id
      = (if pingServer (env.pingEvent s) = true then 1 else 0) ∧
    (pingServer (env.pingEvent s) = true →
      [REvent.pingCheck s.id, REvent.rebootCall s.id].Sublist
        (executeRestart env OrchThrow.none servers).2) ∧
    (pingServer (env.pingEvent s) = false →
      rebootCallCount (executeRestart env OrchThrow.none servers).2 s.id = 0 ∧
      { serverId := s.id, serverName := s.name, error := unreachableMsg s.ipAddress }
        ∈ (executeRestart env OrchThrow.none servers).1.detailErrors) := by
  refine ⟨rebootCallCount_executeRestart env hnd h,
    fun hp => preflight_before_reboot env h hp, fun hp => ⟨?_, ?_⟩⟩
  · rw [rebootCallCount_executeRestart env hnd h, hp]
    simp
  · have hsorted : s ∈ sortByRestartOrder servers :=
      (sortByRestartOrder_perm servers).mem_iff.mpr h
    exact hostError_mem env hsorted (hostStep_error_unreachable env s hp)

/-- Witness for C5: host 1 (reachable) gets exactly one reboot call;
host 1 under an all-timeout environment gets zero. -/
theorem executeRestart_preflight_gates_reboot_witness :
    rebootCallCount (executeRestart envMixed OrchThrow.none [srvEarly, srvLate]).2
      srvEarly.id = 1 ∧
    rebootCallCount (executeRestart envW OrchThrow.none [srvEarly]).2 srvEarly.id = 0 := by
  constructor
  · have h := (executeRestart_preflight_gates_reboot envMixed [srvEarly, srvLate]
      srvEarly (by decide) (by decide)).1
    rw [h]
    decide
  · exact ((executeRestart_preflight_gates_reboot envW [srvEarly] srvEarly
      (by decide) (by decide)).2.2 (by decide)).1

/-- A host that declares a positive (5 second) pacing duration. -/
def srvPaced : Server :=
  { id := 7, name := "cache", hostname := "cache.local", ipAddress := "10.0.0.7",
    restartOrder := 1, restartDelay := 5 }

/-- An environment where the pre-flight ping succeeds but the reboot
session rejects (non-drop exit code 1 with captured stderr). -/
def envRebootFails : RestartEnv :=
  { pingEvent := fun _ => PingEvent.close (some 0),
    sshEvent := fun _ => SSHEvent.close (some 1) "reboot refused" }

/-- C3 counterexample: a host with a positive pacing duration whose
reboot fails is NOT followed by a pacing wait — no sleep step occurs in
the whole trace, refuting "suspends for exactly that duration regardless
of whether that host's restart succeeded or failed". -/
theorem executeRestart_pacing_counterexample :
    0 < srvPaced.restartDelay ∧
    { serverId := srvPaced.id, serverName := srvPaced.name, error := "reboot refused" }
      ∈ (executeRestart envRebootFails OrchThrow.none [srvPaced]).1.detailErrors ∧
    REvent.sleep srvPaced.id srvPaced.restartDelay
      ∉ (executeRestart envRebootFails OrchThrow.none [srvPaced]).2 := by
  decide

/-- C3 (amended): the pacing wait happens exactly once for a host whose
pre-flight passed, whose reboot invocation succeeded and whose declared
pacing duration is positive; it never happens for a host whose reboot
failed (the delay sits inside the per-host `try` after the success
path). -/
theorem executeRestart_pacing_on_success (env : RestartEnv)
    (servers : List Server) (s : Server)
    (hnd : (servers.map Server.id).Nodup) (h : s ∈ servers) :
    sleepCount (executeRestart env OrchThrow.none servers).2 s.id
      = (if pingServer (env.pingEvent s) = true
           ∧ executeSSHReboot (env.sshEvent s) = RebootResult.success
           ∧ 0 < s.restartDelay then 1 else 0) ∧
    (pingServer (env.pingEvent s) = true →
      executeSSHReboot (env.sshEvent s) = RebootResult.success →
      0 < s.restartDelay →
      REvent.sleep s.id s.restartDelay
        ∈ (executeRestart env OrchThrow.none servers).2) ∧
    (executeSSHReboot (env.sshEvent s) ≠ RebootResult.success →
      REvent.sleep s.id s.restartDelay
        ∉ (executeRestart env OrchThrow.none servers).2) := by
  refine ⟨sleepCount_executeRestart env hnd h,
    fun hp hr hdel => sleep_mem_executeRestart env h hp hr hdel, ?_⟩
  intro hne hmem
  have hcount := sleepCount_executeRestart env hnd h
  rw [if_neg (fun hcon => hne hcon.2.1)] at hcount
  have hpos : 0 < (executeRestart env OrchThrow.none servers).2.countP
      (isSleepOf s.id) :=
    List.countP_pos_iff.mpr ⟨_, hmem, by simp [isSleepOf]⟩
  rw [sleepCount] at hcount
  omega

/-- An environment where the ping succeeds and the ssh session drops the
connection (exit code null), i.e. a successful reboot. -/
def envDropOk : RestartEnv :=
  { pingEvent := fun _ => PingEvent.close (some 0),
    sshEvent := fun _ => SSHEvent.close none "" }

/-- Witness for the amended C3: a successfully rebooted host with a
positive pacing duration is followed by its pacing wait. -/
theorem executeRestart_pacing_on_success_witness :
    REvent.sleep srvPaced.id srvPaced.restartDelay
      ∈ (executeRestart envDropOk OrchThrow.none [srvPaced]).2 :=
  (executeRestart_pacing_on_success envDropOk [srvPaced] srvPaced
    (by decide) (by decide)).2.1 (by decide) (by decide) (by decide)

/-! ### Health monitor (`monitorAllServers`, monitoring.js lines 27-79) -/

/-- Host status as stored on the Server row. -/
inductive Status where
  | online
  | offline
  | unknown
deriving DecidableEq

/-- A host as the monitor reads and writes it.  Timestamps are modelled
as naturals (`none` = never probed successfully). -/
structure MServer where
  id : Nat
  name : String
  hostname : String
  ipAddress : String
  port : Nat
  isActive : Bool
  status : Status
  lastPing : Option Nat
  lastTelnet : Option Nat
deriving DecidableEq

/-- A MonitorLog row (`MonitorLog.create`, lines 51-57); the wall-clock
`responseTime` is abstracted away. -/
structure MObs where
  serverId : Nat
  pingStatus : Bool
  telnetStatus : Bool
  errorMessage : Option String
deriving DecidableEq

/-- Environment of one sweep: which events settle each host's probes,
and whether the two storage writes (`server.update`,
`MonitorLog.create`) resolve or reject. -/
structure MonitorEnv where
  pingEvent : MServer → PingEvent
  telnetEvent : MServer → TelnetEvent
  updateResult : MServer → Except String Unit
  createLogResult : MServer → Except String Unit

/-- Modelled from the spec: `sendAlertEmail` lives in
`backend/services/emailService.js`, which is not among the sources; per
the spec, an alert's "delivery failure must be caught and logged, never
propagated to the caller", so the collaborator always returns normally. -/
def sendAlertEmail (_s : MServer) : Except String Unit :=
  Except.ok ()

/-- The `server.update` patch of lines 44-48: status becomes `online`
iff both probes succeeded, `lastPing`/`lastTelnet` are bumped to `now`
only when the corresponding probe succeeded, every other field is
copied. -/
def updatedServer (env : MonitorEnv) (now : Nat) (s : MServer) : MServer :=
  { s with
    status := if pingServer (env.pingEvent s) && telnetServer (env.telnetEvent s)
              then Status.online else Status.offline,
    lastPing := if pingServer (env.pingEvent s) then some now else s.lastPing,
    lastTelnet := if telnetServer (env.telnetEvent s) then some now else s.lastTelnet }

/-- The `MonitorLog.create` row of lines 51-57. -/
def obsFor (env : MonitorEnv) (s : MServer) : MObs :=
  { serverId := s.id,
    pingStatus := pingServer (env.pingEvent s),
    telnetStatus := telnetServer (env.telnetEvent s),
    errorMessage :=
      if pingServer (env.pingEvent s) && telnetServer (env.telnetEvent s) then none
      else some ("Ping: " ++ (if pingServer (env.pingEvent s) then "OK" else "FAIL")
        ++ ", Telnet: " ++ (if telnetServer (env.telnetEvent s) then "OK" else "FAIL")) }

/-- One iteration of the sweep loop (lines 31-75): probe, persist the
new status, record an observation, and on an `online → offline`
transition dispatch the alert.  There is no per-host catch: a rejected
write surfaces as the fourth component and aborts the enclosing loop.
Returns (server state after the iteration, observation written, alert
dispatched, escaped error). -/
def monitorStep (env : MonitorEnv) (now : Nat) (s : MServer) :
    MServer × Option MObs × Option Nat × Option String :=
  match env.updateResult s with
  | Except.error e => (s, none, none, some e)
  | Except.ok _ =>
      match env.createLogResult s with
      | Except.error e => (updatedServer env now s, none, none, some e)
      | Except.ok _ =>
          if s.status = Status.online
              ∧ (updatedServer env now s).status = Status.offline then
            match sendAlertEmail s with
            | Except.ok _ =>
                (updatedServer env now s, some (obsFor env s), some s.id, none)
            | Except.error e =>
                (updatedServer env now s, some (obsFor env s), none, some e)
          else (updatedServer env now s, some (obsFor env s), none, none)

/-- The sweep loop: servers are processed in order; the first escaped
error stops the loop (the remaining hosts are left untouched), matching
the single `try`/`catch` around the whole `for` loop. -/
def monitorLoop (env : MonitorEnv) (now : Nat) :
    List MServer → List MServer × List MObs × List Nat × Option String
  | [] => ([], [], [], none)
  | s :: rest =>
      let step := monitorStep env now s
      match step.2.2.2 with
      | some e => (step.1 :: rest, step.2.1.toList, step.2.2.1.toList, some e)
      | none =>
          let r := monitorLoop env now rest
          (step.1 :: r.1, step.2.1.toList ++ r.2.1,
           step.2.2.1.toList ++ r.2.2.1, r.2.2.2)

/-- Result of one sweep over the active hosts. -/
structure MonitorResult where
  servers : List MServer
  observations : List MObs
  alerts : List Nat
  aborted : Option String
deriving DecidableEq

/-- `monitorAllServers` (lines 27-79): sweep every active host; any
error escaping the loop is caught by the outer catch and only logged
(recorded here in `aborted`), so the function itself always returns. -/
def monitorAllServers (env : MonitorEnv) (now : Nat)
    (servers : List MServer) : MonitorResult :=
  let r := monitorLoop env now (servers.filter (fun s => s.isActive))
  { servers := r.1, observations := r.2.1, alerts := r.2.2.1, aborted := r.2.2.2 }

theorem monitorStep_ok (env : MonitorEnv) (now : Nat) (s : MServer)
    (hupd : env.updateResult s = Except.ok ())
    (hlog : env.createLogResult s = Except.ok ()) :
    monitorStep env now s
      = (updatedServer env now s, some (obsFor env s),
         if s.status = Status.online
             ∧ (updatedServer env now s).status = Status.offline
         then some s.id else none, none) := by
  unfold monitorStep
  rw [hupd, hlog]
  by_cases htr : s.status = Status.online
      ∧ (updatedServer env now s).status = Status.offline
  · simp [htr, sendAlertEmail]
  · simp [htr]

theorem monitorLoop_ok (env : MonitorEnv) (now : Nat) (l : List MServer)
    (hupd : ∀ t, env.updateResult t = Except.ok ())
    (hlog : ∀ t, env.createLogResult t = Except.ok ()) :
    monitorLoop env now l
      = (l.map (updatedServer env now), l.map (obsFor env),
         l.filterMap (fun t =>
           if t.status = Status.online
               ∧ (updatedServer env now t).status = Status.offline
           then some t.id else none),
         none) := by
  induction l with
  | nil => rfl
  | cons s rest ih =>
      have hstep := monitorStep_ok env now s (hupd s) (hlog s)
      by_cases htr : s.status = Status.online
          ∧ (updatedServer env now s).status = Status.offline <;>
        simp [monitorLoop, hstep, ih, htr, List.filterMap_cons]

theorem monitorAllServers_singleton (env : MonitorEnv) (now : Nat) (s : MServer)
    (hact : s.isActive = true)
    (hupd : env.updateResult s = Except.ok ())
    (hlog : env.createLogResult s = Except.ok ()) :
    monitorAllServers env now [s]
      = { servers := [updatedServer env now s],
          observations := [obsFor env s],
          alerts := if s.status = Status.online
              ∧ (updatedServer env now s).status = Status.offline
            then [s.id] else [],
          aborted := none } := by
  have hstep := monitorStep_ok env now s hupd hlog
  by_cases htr : s.status = Status.online
      ∧ (updatedServer env now s).status = Status.offline <;>
    simp [monitorAllServers, monitorLoop, hact, hstep, htr]

theorem updatedServer_status_offline (env : MonitorEnv) (now : Nat) (s : MServer) :
    ((updatedServer env now s).status = Status.offline)
      ↔ (pingServer (env.pingEvent s) && telnetServer (env.telnetEvent s)) = false := by
  unfold updatedServer
  cases hb : pingServer (env.pingEvent s) && telnetServer (env.telnetEvent s) <;>
    simp [hb]

/-- An active host currently recorded `online`. -/
def msA : MServer :=
  { id := 1, name := "A", hostname := "a.local", ipAddress := "10.0.0.1",
    port := 8080, isActive := true, status := Status.online,
    lastPing := none, lastTelnet := none }

/-- A second active host currently recorded `online`. -/
def msB : MServer :=
  { id := 2, name := "B", hostname := "b.local", ipAddress := "10.0.0.2",
    port := 8080, isActive := true, status := Status.online,
    lastPing := none, lastTelnet := none }

/-- A sweep environment where both probes fail for every host and the
status write for host 1 rejects. -/
def envMonUpdateFails : MonitorEnv :=
  { pingEvent := fun _ => PingEvent.timeout,
    telnetEvent := fun _ => TelnetEvent.timeout,
    updateResult := fun s => if s.id = 1 then Except.error "db down" else Except.ok (),
    createLogResult := fun _ => Except.ok () }

/-- C2 counterexample: when host 1's status update rejects, the sweep
aborts — host 2 is never probed or updated (both hosts keep their
previous state and no observation is recorded), although the claim
requires host 2's status still to be updated (its probe fails, so it
should have been recorded offline). -/
theorem monitorAllServers_isolation_counterexample :
    pingServer (envMonUpdateFails.pingEvent msB) = false ∧
    msB.status = Status.online ∧
    (monitorAllServers envMonUpdateFails 5 [msA, msB]).servers = [msA, msB] ∧
    (monitorAllServers envMonUpdateFails 5 [msA, msB]).observations = [] ∧
    (monitorAllServers envMonUpdateFails 5 [msA, msB]).aborted = some "db down" := by
  decide

/-- C2 (amended): probe outcomes never abort the sweep — when the two
storage writes resolve for every host, every active host is probed, has
its status updated and its observation recorded, whatever the probe
results are (the probes and the alert dispatch cannot reject); but a
rejected status update or observation write aborts the remainder of the
sweep, because the `try`/`catch` wraps the whole loop rather than each
host. -/
theorem monitorAllServers_isolation (env : MonitorEnv) (now : Nat)
    (servers : List MServer)
    (hupd : ∀ t, env.updateResult t = Except.ok ())
    (hlog : ∀ t, env.createLogResult t = Except.ok ()) :
    (monitorAllServers env now servers).aborted = none ∧
    (monitorAllServers env now servers).servers
      = (servers.filter (fun s => s.isActive)).map (updatedServer env now) ∧
    (monitorAllServers env now servers).observations
      = (servers.filter (fun s => s.isActive)).map (obsFor env) := by
  unfold monitorAllServers
  rw [monitorLoop_ok env now _ hupd hlog]
  exact ⟨rfl, rfl, rfl⟩

/-- A sweep environment where probes fail for every host and all storage
writes resolve. -/
def envMonDown : MonitorEnv :=
  { pingEvent := fun _ => PingEvent.timeout,
    telnetEvent := fun _ => TelnetEvent.timeout,
    updateResult := fun _ => Except.ok (),
    createLogResult := fun _ => Except.ok () }

/-- Witness for the amended C2: both unreachable hosts are probed and
updated in one sweep, and nothing aborts. -/
theorem monitorAllServers_isolation_witness :
    (monitorAllServers envMonDown 5 [msA, msB]).aborted = none ∧
    (monitorAllServers envMonDown 5 [msA, msB]).observations.length = 2 := by
  have h := monitorAllServers_isolation envMonDown 5 [msA, msB]
    (fun _ => rfl) (fun _ => rfl)
  refine ⟨h.1, ?_⟩
  rw [h.2.2]
  decide

/-- C7: in one sweep a host raises an alert exactly when its stored
status was `online` and the new probe outcome is offline (both probes
did not succeed) — so exactly one alert per `online → offline`
transition, none on `unknown → offline`, none on recovery; and on the
following sweep, while the host stays offline, no further alert is
raised. -/
theorem monitor_alert_on_transition (env env2 : MonitorEnv) (now now2 : Nat)
    (s : MServer) (hact : s.isActive = true)
    (hupd : env.updateResult s = Except.ok ())
    (hlog : env.createLogResult s = Except.ok ()) :
    ((monitorAllServers env now [s]).alerts
      = if s.status = Status.online
          ∧ (pingServer (env.pingEvent s) && telnetServer (env.telnetEvent s)) = false
        then [s.id] else []) ∧
    (pingServer (env.pingEvent s) = false →
      (∀ t, env2.updateResult t = Except.ok ()) →
      (∀ t, env2.createLogResult t = Except.ok ()) →
      (∀ t, pingServer (env2.pingEvent t) = false) →
      (monitorAllServers env2 now2 (monitorAllServers env now [s]).servers).alerts
        = []) := by
  constructor
  · have h1 := congrArg MonitorResult.alerts
      (monitorAllServers_singleton env now s hact hupd hlog)
    rw [h1]
    by_cases hon : s.status = Status.online
    · by_cases hb : (pingServer (env.pingEvent s)
          && telnetServer (env.telnetEvent s)) = false
      · rw [if_pos ⟨hon, (updatedServer_status_offline env now s).mpr hb⟩,
          if_pos ⟨hon, hb⟩]
      · rw [if_neg (fun hcon =>
            hb ((updatedServer_status_offline env now s).mp hcon.2)),
          if_neg (fun hcon => hb hcon.2)]
    · rw [if_neg (fun hcon => hon hcon.1), if_neg (fun hcon => hon hcon.1)]
  · intro hping hupd2 hlog2 hping2
    have hsv := congrArg MonitorResult.servers
      (monitorAllServers_singleton env now s hact hupd hlog)
    rw [hsv]
    have hstat : (updatedServer env now s).status = Status.offline := by
      unfold updatedServer
      simp [hping]
    have hact2 : (updatedServer env now s).isActive = true := hact
    have h2 := congrArg MonitorResult.alerts
      (monitorAllServers_singleton env2 now2 (updatedServer env now s) hact2
        (hupd2 _) (hlog2 _))
    rw [h2]
    rw [if_neg (fun hcon => by
      rw [hstat] at hcon
      exact Status.noConfusion hcon.1)]

/-- An active host currently recorded `online` used for the alert
witness. -/
def msOnline : MServer :=
  { id := 9, name := "web", hostname := "web.local", ipAddress := "10.0.0.9",
    port := 443, isActive := true, status := Status.online,
    lastPing := none, lastTelnet := none }

/-- Witness for C7: the host going `online → offline` raises exactly one
alert, and the next sweep (still offline) raises none. -/
theorem monitor_alert_on_transition_witness :
    (monitorAllServers envMonDown 3 [msOnline]).alerts = [msOnline.id] ∧
    (monitorAllServers envMonDown 4
      (monitorAllServers envMonDown 3 [msOnline]).servers).alerts = [] := by
  constructor
  · rw [(monitor_alert_on_transition envMonDown envMonDown 3 4 msOnline
      rfl rfl rfl).1]
    decide
  · exact (monitor_alert_on_transition envMonDown envMonDown 3 4 msOnline
      rfl rfl rfl).2 rfl (fun _ => rfl) (fun _ => rfl) (fun _ => rfl)

/-- C10: the sweep updates a host to exactly `updatedServer`: `lastPing`
is bumped to the current instant only when the ping probe succeeded
(else kept), `lastTelnet` only when the port probe succeeded (else
kept); every field other than `status`, `lastPing` and `lastTelnet` is
unchanged; and when the status write rejects the host row is left
entirely unchanged. -/
theorem monitor_frame_condition (env : MonitorEnv) (now : Nat) (s : MServer)
    (hact : s.isActive = true) :
    (env.updateResult s = Except.ok () → env.createLogResult s = Except.ok () →
      (monitorAllServers env now [s]).servers = [updatedServer env now s]) ∧
    (updatedServer env now s).lastPing
      = (if pingServer (env.pingEvent s) = true then some now else s.lastPing) ∧
    (updatedServer env now s).lastTelnet
      = (if telnetServer (env.telnetEvent s) = true then some now else s.lastTelnet) ∧
    (updatedServer env now s).id = s.id ∧
    (updatedServer env now s).name = s.name ∧
    (updatedServer env now s).hostname = s.hostname ∧
    (updatedServer env now s).ipAddress = s.ipAddress ∧
    (updatedServer env now s).port = s.port ∧
    (updatedServer env now s).isActive = s.isActive ∧
    (∀ e, env.updateResult s = Except.error e →
      (monitorAllServers env now [s]).servers = [s]) := by
  refine ⟨?_, rfl, rfl, rfl, rfl, rfl, rfl, rfl, rfl, ?_⟩
  · intro hupd hlog
    rw [congrArg MonitorResult.servers
      (monitorAllServers_singleton env now s hact hupd hlog)]
  · intro e hupd
    simp [monitorAllServers, monitorLoop, monitorStep, hact, hupd]

/-- Witness for C10: the unreachable `online` host keeps its (absent)
probe timestamps and all identity fields; only its status changes. -/
theorem monitor_frame_condition_witness :
    (monitorAllServers envMonDown 3 [msOnline]).servers
      = [updatedServer envMonDown 3 msOnline] :=
  (monitor_frame_condition envMonDown 3 msOnline rfl).1 rfl rfl

/-! ### Scheduled-task creation (`Scheduler.tsx`) -/

/-- The creation form state (`formData`).  Instants are modelled in
minutes. -/
structure SchedulerForm where
  name : String
  serverIds : List Nat
  scheduledTime : Nat
  emailNotification : Bool
  notificationEmails : List String
deriving DecidableEq

/-- The request body handed to `schedulerAPI.createTask`. -/
structure TaskRequest where
  name : String
  serverIds : List Nat
  scheduledTime : Nat
  emailNotification : Bool
  notificationEmails : List String
deriving DecidableEq

/-- Outcome of the submit handler: an early return with a toast error,
or the task request sent to the API. -/
inductive SubmitResult where
  | rejected (msg : String)
  | submitted (task : TaskRequest)
deriving DecidableEq

/-- `handleSubmit` (Scheduler.tsx lines 62-94): reject when no server is
selected; reject when the scheduled instant is not strictly in the
future (`scheduledDate <= now`); otherwise submit, stripping blank
notification emails (all of them when notifications are off).  No other
validation is performed by the handler. -/
def handleSubmit (now : Nat) (form : SchedulerForm) : SubmitResult :=
  if form.serverIds.length = 0 then
    SubmitResult.rejected "Please select at least one server"
  else if form.scheduledTime ≤ now then
    SubmitResult.rejected "Scheduled time must be in the future"
  else
    SubmitResult.submitted
      { name := form.name, serverIds := form.serverIds,
        scheduledTime := form.scheduledTime,
        emailNotification := form.emailNotification,
        notificationEmails :=
          if form.emailNotification
          then form.notificationEmails.filter (fun e => !(e.trim == ""))
          else [] }

/-- `getMinDateTime` (lines 155-160): the `min` attribute of the
datetime-local input, one hour (60 minutes) past the current instant. -/
def getMinDateTime (now : Nat) : Nat :=
  now + 60

/-- Whether the handler rejected the request. -/
def submitRejected : SubmitResult → Bool
  | SubmitResult.rejected _ => true
  | SubmitResult.submitted _ => false

/-- A creation request 30 minutes in the future with one selected host. -/
def form30 : SchedulerForm :=
  { name := "weekly maintenance", serverIds := [1], scheduledTime := 30,
    emailNotification := false, notificationEmails := [] }

/-- C4 counterexample: at `now = 0` the request 30 minutes in the future
with a non-empty host set is below the displayed one-hour minimum
(`getMinDateTime 0 = 60`), yet the submit handler does not reject it —
it is submitted. -/
theorem handleSubmit_thirty_minutes_counterexample :
    form30.serverIds ≠ [] ∧
    form30.scheduledTime < getMinDateTime 0 ∧
    submitRejected (handleSubmit 0 form30) = false := by
  decide

/-- C4 (amended): the submit handler rejects a creation request exactly
when the host set is empty or the requested instant is not strictly
later than the current instant; the one-hour lead-time floor exists only
as the form input's `min` attribute (`getMinDateTime`, one hour past
now) and is not enforced by the handler's own validation. -/
theorem handleSubmit_validation (now : Nat) (form : SchedulerForm) :
    (submitRejected (handleSubmit now form) = true ↔
      (form.serverIds = [] ∨ form.scheduledTime ≤ now)) ∧
    getMinDateTime now = now + 60 := by
  refine ⟨?_, rfl⟩
  unfold handleSubmit
  split
  case isTrue hlen =>
    simp [submitRejected, List.length_eq_zero.mp hlen]
  case isFalse hlen =>
    split
    case isTrue hle => simp [submitRejected, hle]
    case isFalse hle =>
      simp [submitRejected]
      exact ⟨fun hcon => absurd (by rw [hcon]; rfl) hlen, not_le.mp hle⟩

/-- An empty-host-set creation request. -/
def formEmpty : SchedulerForm :=
  { name := "t", serverIds := [], scheduledTime := 300,
    emailNotification := false, notificationEmails := [] }

/-- Witness for the amended C4: the empty host set is rejected. -/
theorem handleSubmit_validation_witness :
    submitRejected (handleSubmit 0 formEmpty) = true :=
  (handleSubmit_validation 0 formEmpty).1.mpr (Or.inl rfl)

end Webproject
